import Mathlib

/-!
Verification of the Cream supernet architecture sampler
(`CreamSupernetTrainingMutator` in `nni/nas/pytorch/cream/mutator.py`) and the
dataset gate of the evaluation driver (`examples/nas/cream/test.py`).

Probabilities are modelled as exact rationals.  Randomness is modelled by an
abstract stream `rng : Nat → ℚ` of independent uniform variates on `[0, 1)`;
the `i`-th draw of a call consumes `rng (pos + i)`.  The per-option
probability of a draw function is formalised as the length of the half-open
interval of variates mapped to that option.

A point that matters below: NumPy's `np.random.choice` has the signature
`choice(a, size=None, replace=True, p=None)`.  The source calls
`np.random.choice(self.CHOICE_NUM, item, prob)`, whose third positional
argument therefore binds to `replace`, not to `p`.  The embedding keeps the
four parameters explicit so that the call sites can be translated exactly as
written.
-/

set_option autoImplicit false

namespace Cream

/-- A Python exception value.  `ValueError` is the only exception class the
modelled code raises; the message distinguishes the conditions. -/
inductive PyError where
  | valueError (msg : String)
  deriving DecidableEq, Repr

/-- One uniform integer draw from `{0, …, a-1}`: NumPy draws
`randint(0, a)`, modelled as `⌊u * a⌋` for a uniform variate `u ∈ [0, 1)`. -/
def uniformDraw (a : Nat) (u : ℚ) : Nat :=
  (⌊u * (a : ℚ)⌋).toNat

/-- Inverse-CDF draw for an explicit weight vector: the result is the first
index whose cumulative weight exceeds the variate. -/
def invCdf : List ℚ → ℚ → Nat
  | [], _ => 0
  | w :: ws, u => if u < w then 0 else invCdf ws (u - w) + 1

/-- Remove and return the element of `pool` selected by the variate `u`
(uniform over the current pool). -/
def popDraw (pool : List Nat) (u : ℚ) : Nat × List Nat :=
  let i := (⌊u * (pool.length : ℚ)⌋).toNat
  (pool.getD i 0, pool.eraseIdx i)

/-- Uniform sampling without replacement from a pool, one variate per draw. -/
def sampleNoReplace (rng : Nat → ℚ) : Nat → Nat → List Nat → List Nat
  | _, 0, _ => []
  | pos, s + 1, pool =>
    let d := popDraw pool (rng pos)
    d.1 :: sampleNoReplace rng (pos + 1) s d.2

/-- Weighted sampling without replacement: each draw picks by inverse CDF over
the remaining weights renormalised to the remaining total, then removes the
chosen element. -/
def sampleNoReplaceWeighted (rng : Nat → ℚ) : Nat → Nat → List (Nat × ℚ) → List Nat
  | _, 0, _ => []
  | pos, s + 1, pool =>
    let tot := (pool.map Prod.snd).sum
    let i := invCdf (pool.map fun x => x.2 / tot) (rng pos)
    (pool.getD i (0, 0)).1 :: sampleNoReplaceWeighted rng (pos + 1) s (pool.eraseIdx i)

/-- Model of `np.random.choice(a, size, replace, p)` on an RNG stream starting
at position `pos`.  Validation mirrors NumPy: `a` must be positive; an
explicit `p` must have length `a`, non-negative entries and total mass `1`
(NumPy checks the sum to a tolerance; on exact rationals the check is exact);
sampling without replacement requires `size ≤ a`. -/
def np_random_choice (a size : Nat) (replace : Bool) (p : Option (List ℚ))
    (rng : Nat → ℚ) (pos : Nat) : Except PyError (List Nat) :=
  if a = 0 then
    .error (.valueError "a must be greater than 0")
  else
    match p with
    | none =>
      if replace then
        .ok ((List.range size).map fun i => uniformDraw a (rng (pos + i)))
      else if a < size then
        .error (.valueError "Cannot take a larger sample than population when replace is False")
      else
        .ok (sampleNoReplace rng pos size (List.range a))
    | some q =>
      if q.length ≠ a then
        .error (.valueError "a and p must have same size")
      else if ¬ (q.all fun w => 0 ≤ w) then
        .error (.valueError "probabilities are not non-negative")
      else if q.sum ≠ 1 then
        .error (.valueError "probabilities do not sum to 1")
      else if replace then
        .ok ((List.range size).map fun i => invCdf q (rng (pos + i)))
      else if a < size then
        .error (.valueError "Cannot take a larger sample than population when replace is False")
      else
        .ok (sampleNoReplaceWeighted rng pos size ((List.range a).map fun k => (k, q.getD k 0)))

/-- Truth value of a Python tuple: non-empty tuples are truthy.  This is how a
probability tuple behaves when it lands in a boolean parameter slot. -/
def tupleTruthy (t : List ℚ) : Bool :=
  !t.isEmpty

/-- The sampler's configuration, the four fields stored by
`CreamSupernetTrainingMutator.__init__` (the wrapped model is irrelevant to
sampling and omitted). -/
structure CreamSupernetTrainingMutator where
  how_to_prob : String
  pre_prob : List ℚ
  CHOICE_NUM : Nat
  sta_num : List Nat
  deriving DecidableEq, Repr

/-- Default `pre_prob` of the constructor: `(0.05, 0.05, 0.2, 0.4, 0.2, 0.1)`. -/
def default_pre_prob : List ℚ :=
  [1/20, 1/20, 1/5, 2/5, 1/5, 1/10]

/-- Default `sta_num` of the constructor: `(4, 4, 4, 4, 4)`. -/
def default_sta_num : List Nat :=
  [4, 4, 4, 4, 4]

/-- `__init__`: stores the four configuration arguments unconditionally; no
validation is performed, so construction is total. -/
def CreamSupernetTrainingMutator.init (how_to_prob : String) (pre_prob : List ℚ)
    (CHOICE_NUM : Nat) (sta_num : List Nat) : CreamSupernetTrainingMutator :=
  ⟨how_to_prob, pre_prob, CHOICE_NUM, sta_num⟩

/-- `get_prob`: `None` under `'even'`, the stored `pre_prob` under
`'pre_prob'`, otherwise `ValueError("prob method not supported")`. -/
def get_prob (m : CreamSupernetTrainingMutator) : Except PyError (Option (List ℚ)) :=
  if m.how_to_prob = "even" then .ok none
  else if m.how_to_prob = "pre_prob" then .ok (some m.pre_prob)
  else .error (.valueError "prob method not supported")

/-- The list comprehension over `sta_num`: one `np.random.choice` call per
stage, each consuming as many variates as the stage has slots. -/
def sampleStages (a : Nat) (replace : Bool) (p : Option (List ℚ)) (rng : Nat → ℚ) :
    List Nat → Nat → Except PyError (List (List Nat))
  | [], _ => .ok []
  | item :: rest, pos => do
    let stage ← np_random_choice a item replace p rng pos
    let others ← sampleStages a replace p rng rest (pos + item)
    .ok (stage :: others)

/-- `sample_search`: resolve the probability vector, draw each interior stage,
then prepend and append the sentinel stage `[0]`.

In the `prob is not None` branch the source calls
`np.random.choice(self.CHOICE_NUM, item, prob)`: the third positional
parameter of `np.random.choice` is `replace`, so `prob` binds to `replace`
(as a tuple, by truthiness) and `p` keeps its default `None`. -/
def sample_search (m : CreamSupernetTrainingMutator) (rng : Nat → ℚ) :
    Except PyError (List (List Nat)) := do
  let prob ← get_prob m
  let cand ←
    match prob with
    | none => sampleStages m.CHOICE_NUM true none rng m.sta_num 0
    | some pr => sampleStages m.CHOICE_NUM (tupleTruthy pr) none rng m.sta_num 0
  .ok ([0] :: cand ++ [[0]])

/-- `sample_final`: delegates to `sample_search` unchanged. -/
def sample_final (m : CreamSupernetTrainingMutator) (rng : Nat → ℚ) :
    Except PyError (List (List Nat)) :=
  sample_search m rng

/-- State-passing translation of `sample_search`: the method body contains no
assignment to any field of `self`, so the post-state equals the pre-state. -/
def sample_search_st (self : CreamSupernetTrainingMutator) (rng : Nat → ℚ) :
    Except PyError (List (List Nat)) × CreamSupernetTrainingMutator :=
  (sample_search self rng, self)

/-- State-passing translation of `sample_final`; like `sample_search`, it
leaves `self` untouched. -/
def sample_final_st (self : CreamSupernetTrainingMutator) (rng : Nat → ℚ) :
    Except PyError (List (List Nat)) × CreamSupernetTrainingMutator :=
  (sample_final self rng, self)

/-- The `(replace, p)` pair that `sample_search` passes to
`np.random.choice` for every stage, read off the two call sites: with
`prob = None` the call is `choice(CHOICE_NUM, item)` (`replace` defaults to
`True`, `p` to `None`); otherwise the call is `choice(CHOICE_NUM, item, prob)`
(`prob` binds to `replace` by truthiness, `p` stays `None`). -/
def resolvedChoiceArgs (m : CreamSupernetTrainingMutator) :
    Except PyError (Bool × Option (List ℚ)) :=
  match get_prob m with
  | .error e => .error e
  | .ok none => .ok (true, none)
  | .ok (some pr) => .ok (tupleTruthy pr, none)

/-- Lower endpoint of the variate interval mapped to option `k` by a draw
under probability argument `p`: `k / a` for the uniform draw, the cumulative
weight before `k` for an explicit vector. -/
def lowBd (a : Nat) (p : Option (List ℚ)) (k : Nat) : ℚ :=
  match p with
  | none => (k : ℚ) / (a : ℚ)
  | some q => (q.take k).sum

/-- Probability that one draw under probability argument `p` yields option
`k`: the length of the variate interval `[lowBd k, lowBd (k+1))`. -/
def slotChance (a : Nat) (p : Option (List ℚ)) (k : Nat) : ℚ :=
  lowBd a p (k + 1) - lowBd a p k

/-- The shape invariant claimed for candidates: `stageCount + 2` stages,
sentinel `[0]` first and last, interior stage `i` of length `sta_num[i]`. -/
def shapeOk (sta_num : List Nat) (cand : List (List Nat)) : Prop :=
  cand.length = sta_num.length + 2 ∧
  cand.head? = some [0] ∧
  cand.getLast? = some [0] ∧
  ∀ i, i < sta_num.length → (cand.getD (i + 1) []).length = sta_num.getD i 0

/-- The RNG stream that always returns the variate `0`. -/
def rngZero : Nat → ℚ := fun _ => 0

/-- The RNG stream that always returns the variate `1/2`. -/
def rngHalf : Nat → ℚ := fun _ => 1/2

/-- A mutator built with the constructor defaults except `how_to_prob`, set to
the weighted policy `'pre_prob'`. -/
def cream_default_weighted : CreamSupernetTrainingMutator :=
  CreamSupernetTrainingMutator.init "pre_prob" default_pre_prob 6 default_sta_num

/-- A weighted-policy mutator whose `pre_prob` has the right length but total
mass `9/10`, not a probability distribution. -/
def cream_badsum : CreamSupernetTrainingMutator :=
  CreamSupernetTrainingMutator.init "pre_prob" [1/20, 1/20, 1/5, 2/5, 1/5, 0] 6 default_sta_num

/-- A weighted-policy mutator whose `pre_prob` has length 2 while
`CHOICE_NUM = 6`. -/
def cream_badlen : CreamSupernetTrainingMutator :=
  CreamSupernetTrainingMutator.init "pre_prob" [1/2, 1/2] 6 default_sta_num

/-- A mutator built with an unrecognized policy string. -/
def cream_badpolicy : CreamSupernetTrainingMutator :=
  CreamSupernetTrainingMutator.init "flops" default_pre_prob 6 default_sta_num

/-- A mutator built with the constructor defaults (`'even'` policy). -/
def cream_even_default : CreamSupernetTrainingMutator :=
  CreamSupernetTrainingMutator.init "even" default_pre_prob 6 default_sta_num

/-- The candidate produced from the default skeleton when every variate is
`0`: every searched slot draws option `0`. -/
def allZeroCand : List (List Nat) :=
  [[0], [0, 0, 0, 0], [0, 0, 0, 0], [0, 0, 0, 0], [0, 0, 0, 0], [0, 0, 0, 0], [0]]

/-- The interior stages that the uniform sampling path produces: stage `i`
holds `sta_num[i]` uniform draws, consuming consecutive RNG positions. -/
def stagesVal (a : Nat) (rng : Nat → ℚ) : List Nat → Nat → List (List Nat)
  | [], _ => []
  | item :: rest, pos =>
    ((List.range item).map fun i => uniformDraw a (rng (pos + i))) ::
      stagesVal a rng rest (pos + item)

end Cream

namespace CreamDriver

/-- What the driver's dataset section does next, as far as the gate is
concerned: take the `--tiny` loading path, exit the process with a code after
logging a message, or proceed to build the evaluation dataset and loader. -/
inductive DriverStep where
  | tinyLoad
  | exitWithCode (code : Nat) (msg : String)
  | loadEval
  deriving DecidableEq, Repr

/-- The dataset gate of `main` in `test.py`: under `--tiny` a separate loader
is used and no directory check happens; otherwise a missing `train`
subdirectory, then a missing `val` subdirectory, each log an error and exit
with code 1, and only when both exist is any data loaded. -/
def datasetGate (tiny trainExists valIsDir : Bool) : DriverStep :=
  if tiny then .tinyLoad
  else if !trainExists then .exitWithCode 1 "Training folder does not exist"
  else if !valIsDir then .exitWithCode 1 "Validation folder does not exist"
  else .loadEval

end CreamDriver

open Cream CreamDriver

theorem get_prob_unrecognized (m : CreamSupernetTrainingMutator)
    (h1 : m.how_to_prob ≠ "even") (h2 : m.how_to_prob ≠ "pre_prob") :
    get_prob m = .error (.valueError "prob method not supported") := by
  simp [get_prob, h1, h2]

theorem sample_search_unrecognized (m : CreamSupernetTrainingMutator) (rng : Nat → ℚ)
    (h1 : m.how_to_prob ≠ "even") (h2 : m.how_to_prob ≠ "pre_prob") :
    sample_search m rng = .error (.valueError "prob method not supported") := by
  unfold sample_search
  rw [get_prob_unrecognized m h1 h2]
  rfl

theorem uniformDraw_zero (a : Nat) : uniformDraw a (0 : ℚ) = 0 := by
  simp [uniformDraw]

theorem uniformDraw_lt (a : Nat) (ha : 1 ≤ a) (u : ℚ) (h0 : 0 ≤ u) (h1 : u < 1) :
    uniformDraw a u < a := by
  have hap : (0 : ℚ) < (a : ℚ) := by
    have : 0 < a := ha
    exact_mod_cast this
  have hmul : u * (a : ℚ) < (a : ℚ) := by
    calc u * (a : ℚ) < 1 * (a : ℚ) := mul_lt_mul_of_pos_right h1 hap
    _ = (a : ℚ) := one_mul _
  have hf : ⌊u * (a : ℚ)⌋ < (a : ℤ) := by
    rw [Int.floor_lt]
    exact_mod_cast hmul
  unfold uniformDraw
  omega

theorem np_choice_uniform (a size pos : Nat) (rng : Nat → ℚ) (ha : a ≠ 0) :
    np_random_choice a size true none rng pos =
      .ok ((List.range size).map fun i => uniformDraw a (rng (pos + i))) := by
  simp [np_random_choice, ha]

theorem sampleStages_uniform (a : Nat) (rng : Nat → ℚ) (ha : a ≠ 0) :
    ∀ (items : List Nat) (pos : Nat),
      sampleStages a true none rng items pos = .ok (stagesVal a rng items pos) := by
  intro items
  induction items with
  | nil => intro pos; rfl
  | cons item rest ih =>
    intro pos
    simp only [sampleStages, stagesVal, np_choice_uniform a item pos rng ha, ih (pos + item)]
    rfl

theorem sample_search_recognized (m : CreamSupernetTrainingMutator) (rng : Nat → ℚ)
    (ha : m.CHOICE_NUM ≠ 0)
    (hpol : m.how_to_prob = "even" ∨ (m.how_to_prob = "pre_prob" ∧ m.pre_prob ≠ [])) :
    sample_search m rng = .ok ([0] :: stagesVal m.CHOICE_NUM rng m.sta_num 0 ++ [[0]]) := by
  rcases hpol with he | ⟨hp, hne⟩
  · have hg : get_prob m = .ok none := by simp [get_prob, he]
    unfold sample_search
    rw [hg]
    show sampleStages m.CHOICE_NUM true none rng m.sta_num 0 >>= _ = _
    rw [sampleStages_uniform m.CHOICE_NUM rng ha]
    rfl
  · have hev : m.how_to_prob ≠ "even" := by rw [hp]; decide
    have hg : get_prob m = .ok (some m.pre_prob) := by simp [get_prob, hev, hp]
    have ht : tupleTruthy m.pre_prob = true := by
      cases hq : m.pre_prob with
      | nil => exact absurd hq hne
      | cons x xs => rfl
    unfold sample_search
    rw [hg]
    show sampleStages m.CHOICE_NUM (tupleTruthy m.pre_prob) none rng m.sta_num 0 >>= _ = _
    rw [ht, sampleStages_uniform m.CHOICE_NUM rng ha]
    rfl

theorem stagesVal_rngZero (a : Nat) :
    ∀ (items : List Nat) (pos : Nat),
      stagesVal a rngZero items pos = items.map fun item => List.replicate item 0 := by
  intro items
  induction items with
  | nil => intro pos; rfl
  | cons item rest ih =>
    intro pos
    simp [stagesVal, ih, rngZero, uniformDraw_zero]

theorem stagesVal_length (a : Nat) (rng : Nat → ℚ) :
    ∀ (items : List Nat) (pos : Nat), (stagesVal a rng items pos).length = items.length := by
  intro items
  induction items with
  | nil => intro pos; rfl
  | cons item rest ih => intro pos; simp [stagesVal, ih]

theorem stagesVal_getD_length (a : Nat) (rng : Nat → ℚ) :
    ∀ (items : List Nat) (pos i : Nat), i < items.length →
      ((stagesVal a rng items pos).getD i []).length = items.getD i 0 := by
  intro items
  induction items with
  | nil => intro pos i h; simp at h
  | cons item rest ih =>
    intro pos i h
    cases i with
    | zero => simp [stagesVal]
    | succ j =>
      simp only [stagesVal, List.getD_cons_succ]
      exact ih (pos + item) j (by simpa using h)

theorem stagesVal_mem_lt (a : Nat) (rng : Nat → ℚ) (ha : 1 ≤ a)
    (hrng : ∀ i, 0 ≤ rng i ∧ rng i < 1) :
    ∀ (items : List Nat) (pos : Nat), ∀ s ∈ stagesVal a rng items pos, ∀ v ∈ s, v < a := by
  intro items
  induction items with
  | nil => intro pos s hs; simp [stagesVal] at hs
  | cons item rest ih =>
    intro pos s hs
    simp only [stagesVal, List.mem_cons] at hs
    rcases hs with hs | hs
    · subst hs
      intro v hv
      simp only [List.mem_map] at hv
      rcases hv with ⟨i, _, rfl⟩
      exact uniformDraw_lt a ha _ (hrng _).1 (hrng _).2
    · exact ih (pos + item) s hs

theorem hpol_weaken (m : CreamSupernetTrainingMutator) (ha : 1 ≤ m.CHOICE_NUM)
    (hpol : m.how_to_prob = "even" ∨
      (m.how_to_prob = "pre_prob" ∧ m.pre_prob.length = m.CHOICE_NUM)) :
    m.how_to_prob = "even" ∨ (m.how_to_prob = "pre_prob" ∧ m.pre_prob ≠ []) := by
  rcases hpol with he | ⟨hp, hl⟩
  · exact Or.inl he
  · refine Or.inr ⟨hp, ?_⟩
    intro hnil
    rw [hnil] at hl
    simp at hl
    omega

/-- C1: the claim says that under the `'pre_prob'` policy each slot is drawn
with the per-option probabilities of `pre_prob`.  Evaluating the code: `prob`
binds to the `replace` parameter of `np.random.choice`, so the probability
argument actually passed is `None`, every option has chance `1/6`, which
differs from `pre_prob[0] = 1/20`, and the all-zero RNG stream yields the
uniform all-zero candidate. -/
theorem c1_weighted_policy_prior_ignored :
    resolvedChoiceArgs cream_default_weighted = .ok (true, none) ∧
    slotChance 6 none 0 = 1/6 ∧
    default_pre_prob.getD 0 0 = 1/20 ∧
    slotChance 6 none 0 ≠ default_pre_prob.getD 0 0 ∧
    sample_search cream_default_weighted rngZero = .ok allZeroCand := by
  have hslot : slotChance 6 none 0 = 1/6 := by
    simp only [slotChance, lowBd]
    norm_num
  have hgetd : default_pre_prob.getD 0 0 = 1/20 := rfl
  refine ⟨rfl, hslot, hgetd, ?_, ?_⟩
  · rw [hslot, hgetd]
    norm_num
  · rw [sample_search_recognized cream_default_weighted rngZero (by decide)
      (Or.inr ⟨rfl, by decide⟩), stagesVal_rngZero]
    exact congrArg Except.ok (by decide)

/-- C2: the claim says a `pre_prob` that sums to `9/10` or has length `≠
CHOICE_NUM` makes the weighted-policy sample raise.  Evaluating the code: both
mutators return a candidate (`prob` lands in `replace`, so NumPy never
validates it as a distribution) and no error is raised. -/
theorem c2_invalid_distribution_not_rejected :
    ([1/20, 1/20, 1/5, 2/5, 1/5, 0] : List ℚ).sum = 9/10 ∧
    sample_search cream_badsum rngZero = .ok allZeroCand ∧
    cream_badlen.pre_prob.length ≠ cream_badlen.CHOICE_NUM ∧
    sample_search cream_badlen rngZero = .ok allZeroCand := by
  refine ⟨?_, ?_, by decide, ?_⟩
  · simp only [List.sum_cons, List.sum_nil]
    norm_num
  · rw [sample_search_recognized cream_badsum rngZero (by decide)
      (Or.inr ⟨rfl, by decide⟩), stagesVal_rngZero]
    exact congrArg Except.ok (by decide)
  · rw [sample_search_recognized cream_badlen rngZero (by decide)
      (Or.inr ⟨rfl, by decide⟩), stagesVal_rngZero]
    exact congrArg Except.ok (by decide)

/-- C5: for every policy string other than `'even'` and `'pre_prob'`,
`sample_search` raises `ValueError("prob method not supported")` and never
returns a candidate. -/
theorem c5_unrecognized_policy_raises (m : CreamSupernetTrainingMutator) (rng : Nat → ℚ)
    (h1 : m.how_to_prob ≠ "even") (h2 : m.how_to_prob ≠ "pre_prob") :
    sample_search m rng = .error (.valueError "prob method not supported") ∧
    ∀ cand, sample_search m rng ≠ .ok cand := by
  have h := sample_search_unrecognized m rng h1 h2
  exact ⟨h, fun cand hc => by rw [h] at hc; cases hc⟩

theorem c5_unrecognized_policy_raises_witness :
    cream_badpolicy.how_to_prob ≠ "even" ∧ cream_badpolicy.how_to_prob ≠ "pre_prob" ∧
    (sample_search cream_badpolicy rngZero = .error (.valueError "prob method not supported") ∧
     ∀ cand, sample_search cream_badpolicy rngZero ≠ .ok cand) :=
  ⟨by decide, by decide, c5_unrecognized_policy_raises cream_badpolicy rngZero (by decide) (by decide)⟩

/-- C6: `sample_final` is definitionally the same function as
`sample_search`: identical on every mutator and every RNG stream, hence
identical distribution and shape invariants. -/
theorem c6_sample_final_delegates : sample_final = sample_search := rfl

/-- C8: construction with an unrecognized policy string succeeds and stores
the four arguments verbatim; the error surfaces only when `sample_search`
(hence `get_prob`) is first called. -/
theorem c8_lazy_policy_validation (htp : String) (pp : List ℚ) (cn : Nat) (sn : List Nat)
    (h1 : htp ≠ "even") (h2 : htp ≠ "pre_prob") :
    CreamSupernetTrainingMutator.init htp pp cn sn = ⟨htp, pp, cn, sn⟩ ∧
    ∀ rng, sample_search (CreamSupernetTrainingMutator.init htp pp cn sn) rng =
      .error (.valueError "prob method not supported") :=
  ⟨rfl, fun rng => sample_search_unrecognized _ rng h1 h2⟩

theorem c8_lazy_policy_validation_witness :
    ("flops" ≠ "even") ∧ ("flops" ≠ "pre_prob") ∧
    (CreamSupernetTrainingMutator.init "flops" default_pre_prob 6 default_sta_num =
        ⟨"flops", default_pre_prob, 6, default_sta_num⟩ ∧
     ∀ rng, sample_search (CreamSupernetTrainingMutator.init "flops" default_pre_prob 6 default_sta_num) rng =
        .error (.valueError "prob method not supported")) :=
  ⟨by decide, by decide, c8_lazy_policy_validation "flops" default_pre_prob 6 default_sta_num (by decide) (by decide)⟩

/-- C9: the state-passing translations of `sample_search` and `sample_final`
return the configuration unchanged, field by field, while producing the same
result as the pure sampler; only the RNG stream is consumed. -/
theorem c9_sampler_state_frame : ∀ (m : CreamSupernetTrainingMutator) (rng : Nat → ℚ),
    (sample_search_st m rng).1 = sample_search m rng ∧
    (sample_final_st m rng).1 = sample_final m rng ∧
    (sample_search_st m rng).2 = m ∧
    (sample_final_st m rng).2 = m ∧
    (sample_search_st m rng).2.how_to_prob = m.how_to_prob ∧
    (sample_search_st m rng).2.pre_prob = m.pre_prob ∧
    (sample_search_st m rng).2.CHOICE_NUM = m.CHOICE_NUM ∧
    (sample_search_st m rng).2.sta_num = m.sta_num :=
  fun _ _ => ⟨rfl, rfl, rfl, rfl, rfl, rfl, rfl, rfl⟩

/-- C10: in a run that requires the `train` and `val` subdirectories (i.e.
without `--tiny`), if either is missing the driver logs the corresponding
error and exits with code 1, and never reaches the data-loading step. -/
theorem c10_missing_dataset_exits_one (te vd : Bool) (h : te = false ∨ vd = false) :
    (datasetGate false te vd = .exitWithCode 1 "Training folder does not exist" ∨
     datasetGate false te vd = .exitWithCode 1 "Validation folder does not exist") ∧
    datasetGate false te vd ≠ .loadEval := by
  cases te <;> cases vd <;> simp_all [datasetGate]

theorem c10_missing_dataset_exits_one_witness :
    (false = false ∨ true = false) ∧
    ((datasetGate false false true = .exitWithCode 1 "Training folder does not exist" ∨
      datasetGate false false true = .exitWithCode 1 "Validation folder does not exist") ∧
     datasetGate false false true ≠ .loadEval) :=
  ⟨Or.inl rfl, c10_missing_dataset_exits_one false true (Or.inl rfl)⟩

/-- C3: for every valid skeleton (`choiceCount ≥ 1`, and under the weighted
policy a `pre_prob` of length `choiceCount`) and every recognized policy,
`sample_search` returns a candidate with `sta_num.length + 2` stages, sentinel
`[0]` first and last, and interior stage `i` of length `sta_num[i]`. -/
theorem c3_candidate_shape (m : CreamSupernetTrainingMutator) (rng : Nat → ℚ)
    (ha : 1 ≤ m.CHOICE_NUM)
    (hpol : m.how_to_prob = "even" ∨
      (m.how_to_prob = "pre_prob" ∧ m.pre_prob.length = m.CHOICE_NUM)) :
    ∃ cand, sample_search m rng = .ok cand ∧ shapeOk m.sta_num cand := by
  have ha0 : m.CHOICE_NUM ≠ 0 := by omega
  refine ⟨_, sample_search_recognized m rng ha0 (hpol_weaken m ha hpol), ?_, ?_, ?_, ?_⟩
  · simp [stagesVal_length]
  · rfl
  · show (([0] :: stagesVal m.CHOICE_NUM rng m.sta_num 0) ++ [[0]]).getLast? = some [0]
    exact List.getLast?_concat _
  · intro i hi
    have hilen : i < (stagesVal m.CHOICE_NUM rng m.sta_num 0).length := by
      rw [stagesVal_length]
      exact hi
    show ((([0] :: stagesVal m.CHOICE_NUM rng m.sta_num 0) ++ [[0]]).getD (i + 1) []).length =
      m.sta_num.getD i 0
    rw [List.getD_append _ _ _ _ (by simpa using Nat.succ_lt_succ hilen),
      List.getD_cons_succ]
    exact stagesVal_getD_length m.CHOICE_NUM rng m.sta_num 0 i hi

theorem c3_candidate_shape_witness :
    (1 ≤ cream_even_default.CHOICE_NUM ∧
     (cream_even_default.how_to_prob = "even" ∨
      (cream_even_default.how_to_prob = "pre_prob" ∧
       cream_even_default.pre_prob.length = cream_even_default.CHOICE_NUM))) ∧
    (∃ cand, sample_search cream_even_default rngZero = .ok cand ∧
      shapeOk cream_even_default.sta_num cand) :=
  ⟨⟨by decide, Or.inl rfl⟩, c3_candidate_shape cream_even_default rngZero (by decide) (Or.inl rfl)⟩

/-- C4: for every candidate the sampler returns under a recognized policy
(valid skeleton, RNG variates in `[0, 1)`), every entry of every stage —
interior stages and sentinels alike — lies below `CHOICE_NUM` (and being a
natural number, is at least `0`). -/
theorem c4_entries_in_range (m : CreamSupernetTrainingMutator) (rng : Nat → ℚ)
    (hrng : ∀ i, 0 ≤ rng i ∧ rng i < 1)
    (ha : 1 ≤ m.CHOICE_NUM)
    (hpol : m.how_to_prob = "even" ∨
      (m.how_to_prob = "pre_prob" ∧ m.pre_prob.length = m.CHOICE_NUM)) :
    ∃ cand, sample_search m rng = .ok cand ∧ ∀ s ∈ cand, ∀ v ∈ s, v < m.CHOICE_NUM := by
  have ha0 : m.CHOICE_NUM ≠ 0 := by omega
  refine ⟨_, sample_search_recognized m rng ha0 (hpol_weaken m ha hpol), ?_⟩
  intro s hs
  simp only [List.mem_cons, List.mem_append, List.mem_singleton, List.not_mem_nil,
    or_false] at hs
  rcases hs with (rfl | hs) | rfl
  · intro v hv
    simp only [List.mem_singleton] at hv
    omega
  · exact stagesVal_mem_lt m.CHOICE_NUM rng ha hrng m.sta_num 0 s hs
  · intro v hv
    simp only [List.mem_singleton] at hv
    omega

theorem c4_entries_in_range_witness :
    ((∀ i, 0 ≤ rngHalf i ∧ rngHalf i < 1) ∧
     1 ≤ cream_even_default.CHOICE_NUM ∧
     (cream_even_default.how_to_prob = "even" ∨
      (cream_even_default.how_to_prob = "pre_prob" ∧
       cream_even_default.pre_prob.length = cream_even_default.CHOICE_NUM))) ∧
    (∃ cand, sample_search cream_even_default rngHalf = .ok cand ∧
      ∀ s ∈ cand, ∀ v ∈ s, v < cream_even_default.CHOICE_NUM) :=
  ⟨⟨fun _ => ⟨by norm_num [rngHalf], by norm_num [rngHalf]⟩, by decide, Or.inl rfl⟩,
   c4_entries_in_range cream_even_default rngHalf
     (fun _ => ⟨by norm_num [rngHalf], by norm_num [rngHalf]⟩) (by decide) (Or.inl rfl)⟩

/-- C7: under the `'even'` policy the probability argument handed to
`np.random.choice` is `None` (with `replace` at its default `True`), the
variates sent to option `k` form exactly the interval
`[k/CHOICE_NUM, (k+1)/CHOICE_NUM)`, and hence every option has the same
chance `1/CHOICE_NUM`. -/
theorem c7_uniform_policy (m : CreamSupernetTrainingMutator)
    (h : m.how_to_prob = "even") (ha : 1 ≤ m.CHOICE_NUM) :
    resolvedChoiceArgs m = .ok (true, none) ∧
    (∀ u : ℚ, 0 ≤ u → u < 1 → ∀ k, k < m.CHOICE_NUM →
      (uniformDraw m.CHOICE_NUM u = k ↔
        lowBd m.CHOICE_NUM none k ≤ u ∧ u < lowBd m.CHOICE_NUM none (k + 1))) ∧
    (∀ k, k < m.CHOICE_NUM → slotChance m.CHOICE_NUM none k = 1 / m.CHOICE_NUM) := by
  have ha0 : (0 : ℚ) < (m.CHOICE_NUM : ℚ) := by
    have : 0 < m.CHOICE_NUM := ha
    exact_mod_cast this
  refine ⟨?_, ?_, ?_⟩
  · simp [resolvedChoiceArgs, get_prob, h]
  · intro u h0 h1 k hk
    have hiff : ⌊u * (m.CHOICE_NUM : ℚ)⌋ = (k : ℤ) ↔
        ((k : ℚ) / m.CHOICE_NUM ≤ u ∧ u < ((k : ℚ) + 1) / m.CHOICE_NUM) := by
      rw [Int.floor_eq_iff]
      constructor
      · rintro ⟨hl, hr⟩
        constructor
        · rw [div_le_iff₀ ha0]
          exact_mod_cast hl
        · rw [lt_div_iff₀ ha0]
          exact_mod_cast hr
      · rintro ⟨hl, hr⟩
        rw [div_le_iff₀ ha0] at hl
        rw [lt_div_iff₀ ha0] at hr
        constructor
        · exact_mod_cast hl
        · exact_mod_cast hr
    have hnn : 0 ≤ ⌊u * (m.CHOICE_NUM : ℚ)⌋ := Int.floor_nonneg.mpr (by positivity)
    simp only [uniformDraw, lowBd]
    constructor
    · intro he
      have hz : ⌊u * (m.CHOICE_NUM : ℚ)⌋ = (k : ℤ) := by omega
      have h2 := hiff.mp hz
      push_cast
      push_cast at h2
      exact h2
    · intro hb
      push_cast at hb
      have hz := hiff.mpr hb
      omega
  · intro k hk
    simp only [slotChance, lowBd]
    push_cast
    rw [div_sub_div_same]
    norm_num

theorem c7_uniform_policy_witness :
    (cream_even_default.how_to_prob = "even" ∧ 1 ≤ cream_even_default.CHOICE_NUM) ∧
    (resolvedChoiceArgs cream_even_default = .ok (true, none) ∧
     (∀ u : ℚ, 0 ≤ u → u < 1 → ∀ k, k < cream_even_default.CHOICE_NUM →
       (uniformDraw cream_even_default.CHOICE_NUM u = k ↔
         lowBd cream_even_default.CHOICE_NUM none k ≤ u ∧
           u < lowBd cream_even_default.CHOICE_NUM none (k + 1))) ∧
     (∀ k, k < cream_even_default.CHOICE_NUM →
       slotChance cream_even_default.CHOICE_NUM none k = 1 / cream_even_default.CHOICE_NUM)) :=
  ⟨⟨rfl, by decide⟩, c7_uniform_policy cream_even_default rfl (by decide)⟩
